import Mathlib

/-!
Verification development for the player-record
reconciliation pipeline.  The Lean definitions below are a shallow embedding of the
Python code in `ff_draft_assistant/player_validator.py`, `nfl_roster_validator.py`
and `adp_integration.py`: Python dictionaries become insertion-ordered association
lists, Python scalar values become the inductive `PyVal` (distinguishing `None`,
strings, ints and floats, the latter modelled as exact rationals), fallible Python
code (code that can raise) returns `Except Unit`, and the ratio of `difflib.SequenceMatcher` is replicated exactly (longest-matching-block recursion with the same
Ratcliff–Obershelp greedy tie-breaking; no junk heuristic, which is inert for the
short strings involved).
-/

/-- A Python scalar value as it appears in the player dictionaries:
`None`, a string, an int, or a float (modelled as an exact rational). -/
inductive PyVal where
  | none : PyVal
  | str (s : String) : PyVal
  | int (n : ℤ) : PyVal
  | float (q : ℚ) : PyVal
deriving DecidableEq, Repr

/-- Python truthiness of a `PyVal` (`bool(v)`). -/
def PyVal.truthy : PyVal → Bool
  | .none => false
  | .str s => s ≠ ""
  | .int n => n ≠ 0
  | .float q => q ≠ 0

/-- Model of `isinstance(v, str)`. -/
def PyVal.isStr : PyVal → Bool
  | .str _ => true
  | _ => false

/-- Model of `isinstance(v, (int, float))`. -/
def PyVal.isNum : PyVal → Bool
  | .int _ => true
  | .float _ => true
  | _ => false

/-- The rational magnitude of a numeric value (0 otherwise; only used under
an `isNum` guard). -/
def PyVal.numQ : PyVal → ℚ
  | .int n => (n : ℚ)
  | .float q => q
  | _ => 0

/-- Python `==` between scalar values: numeric values compare by magnitude
across int/float, everything else structurally. -/
def pyEq : PyVal → PyVal → Bool
  | .int n, .int m => n = m
  | .int n, .float q => (n : ℚ) = q
  | .float q, .int n => q = (n : ℚ)
  | .float q, .float r => q = r
  | .str s, .str t => s = t
  | .none, .none => true
  | _, _ => false

/-- An insertion-ordered association list with string keys: the model of a
Python `dict` (`PDict` for player records, and reused generically). -/
def PyDict (α : Type) : Type := List (String × α)

instance (α : Type) [DecidableEq α] : DecidableEq (PyDict α) :=
  inferInstanceAs (DecidableEq (List (String × α)))

instance (α : Type) [Repr α] : Repr (PyDict α) :=
  inferInstanceAs (Repr (List (String × α)))

instance (α : Type) : Membership (String × α) (PyDict α) :=
  inferInstanceAs (Membership (String × α) (List (String × α)))

instance (α : Type) : Append (PyDict α) := inferInstanceAs (Append (List (String × α)))

/-- Append a fresh binding at the end of the dict. -/
def PyDict.append1 {α : Type} (d : PyDict α) (k : String) (v : α) : PyDict α :=
  List.append d [(k, v)]

/-- Model of `d.get(k)` / `k in d`: the value stored at `k`, if any. -/
def PyDict.get {α : Type} : PyDict α → String → Option α
  | [], _ => Option.none
  | (k0, v0) :: rest, k => if k0 = k then some v0 else PyDict.get rest k

/-- Model of `d[k] = v`: update in place if the key exists (keeping its position, as a
Python dict does), else append at the end. -/
def PyDict.set {α : Type} : PyDict α → String → α → PyDict α
  | [], k, v => [(k, v)]
  | (k0, v0) :: rest, k, v =>
    if k0 = k then (k0, v) :: rest else (k0, v0) :: PyDict.set rest k v

/-- Model of `d.get(k, dflt)`. -/
def PyDict.getD {α : Type} (d : PyDict α) (k : String) (dflt : α) : α :=
  (d.get k).getD dflt

/-- The keys of the dict, in insertion order. -/
def PyDict.keys {α : Type} (d : PyDict α) : List String := d.map Prod.fst

/-- The values of the dict, in insertion order (`list(d.values())`). -/
def PyDict.values {α : Type} (d : PyDict α) : List α := d.map Prod.snd

/-- A player record: a Python dict from field names to scalar values. -/
def PDict : Type := PyDict PyVal

instance : DecidableEq PDict := inferInstanceAs (DecidableEq (PyDict PyVal))

instance {e a : Type} [DecidableEq e] [DecidableEq a] : DecidableEq (Except e a) :=
  fun x y =>
    match x, y with
    | .error u, .error w =>
      if h : u = w then isTrue (by rw [h]) else isFalse (by intro hc; cases hc; exact h rfl)
    | .ok u, .ok w =>
      if h : u = w then isTrue (by rw [h]) else isFalse (by intro hc; cases hc; exact h rfl)
    | .error _, .ok _ => isFalse (by intro hc; cases hc)
    | .ok _, .error _ => isFalse (by intro hc; cases hc)

/-- Extract a Python `str`, raising (`Except.error`) on any other value —
the model of calling a string method on a non-string. -/
def asStr : PyVal → Except Unit String
  | .str s => Except.ok s
  | _ => Except.error ()

/-- Model of `d[k]`: indexing that raises `KeyError` when the key is missing. -/
def PyDict.getEx {α : Type} (d : PyDict α) (k : String) : Except Unit α :=
  match d.get k with
  | some v => Except.ok v
  | Option.none => Except.error ()

/-! ### Python string primitives -/

/-- Python `str.lower()` (ASCII, which covers every string in this code base). -/
def pyLower (s : String) : String := String.mk (s.data.map Char.toLower)

/-- Python `str.upper()`. -/
def pyUpper (s : String) : String := String.mk (s.data.map Char.toUpper)

/-- Drop trailing whitespace characters. -/
def dropTrailingWs (l : List Char) : List Char :=
  (l.reverse.dropWhile Char.isWhitespace).reverse

/-- Python `str.strip()`. -/
def pyStrip (s : String) : String :=
  String.mk (dropTrailingWs (s.data.dropWhile Char.isWhitespace))

/-- Split a character list at a separator predicate, keeping empty pieces
(the behaviour of splitting on every separator occurrence). -/
def splitChars (isSep : Char → Bool) : List Char → List Char → List String
  | [], acc => [String.mk acc.reverse]
  | c :: rest, acc =>
    if isSep c then String.mk acc.reverse :: splitChars isSep rest []
    else splitChars isSep rest (c :: acc)

/-- Python `str.split()` with no argument: split on whitespace runs,
discarding empty pieces. -/
def pySplitWs (s : String) : List String :=
  (splitChars Char.isWhitespace s.data []).filter (fun piece => piece ≠ "")

/-- Python `s.split(sep)` for a one-character separator. -/
def pySplitOnChar (sep : Char) (s : String) : List String :=
  splitChars (fun c => c = sep) s.data []

/-- Model of `s.endswith(suf)`. -/
def strEndsWith (s suf : String) : Bool :=
  suf.data.reverse.isPrefixOf s.data.reverse

/-- Space-join of the whitespace split: collapse internal whitespace and strip the ends. -/
def collapseWs (s : String) : String := " ".intercalate (pySplitWs s)

/-- Python `str.title()`: a character is uppercased when the previous character
is not a letter, lowercased otherwise. -/
def pyTitle (s : String) : String :=
  (String.mk (titleGo s.data false))
where
  titleGo : List Char → Bool → List Char
    | [], _ => []
    | c :: rest, prevAlpha =>
      (if prevAlpha then c.toLower else c.toUpper) :: titleGo rest c.isAlpha

/-- The apostrophe character, written via its code point. -/
def apos : Char := Char.ofNat 39

/-! ### difflib.SequenceMatcher

`find_longest_match` scans `i` over `a[alo:ahi]` in increasing order keeping, for
each `j`, the length of the longest common suffix of `a[..i]` and `b[..j]` that
stays inside the window; the best block is updated only on a strictly larger
size, which reproduces the difflib tie-breaking of earliest `i` then earliest `j`.
`ratio()` is `2*M/(len(a)+len(b))` where `M` sums the sizes of the recursively
chosen matching blocks. -/

/-- The length of the longest common suffix of `a[..i]` and `b[..j]` staying
inside the window starting at `alo`/`blo` — the quantity difflib accumulates
in its `j2len` dict.  Each cell recurses independently on `(i-1, j-1)`, which
keeps kernel evaluation linear. -/
def smSuffix (a b : List Char) (alo blo : ℕ) : ℕ → ℕ → ℕ
  | 0, j => if a.getD 0 (Char.ofNat 0) = b.getD j (Char.ofNat 0) then 1 else 0
  | i2 + 1, j =>
    if a.getD (i2 + 1) (Char.ofNat 0) = b.getD j (Char.ofNat 0) then
      match j with
      | 0 => 1
      | j2 + 1 => if alo ≤ i2 ∧ blo ≤ j2 then smSuffix a b alo blo i2 j2 + 1 else 1
    else 0

/-- Row `i` of the window: the cells `(i, j, suffixlen)` for `j` ascending —
one iteration of the difflib scan over `a[alo:ahi]`. -/
def smRow (a b : List Char) (alo blo bhi : ℕ) (i : ℕ) : List (ℕ × ℕ × ℕ) :=
  (List.range (bhi - blo)).map (fun dj =>
    (i, blo + dj, smSuffix a b alo blo i (blo + dj)))

/-- The largest block size ending in one row. -/
def smRowMax (row : List (ℕ × ℕ × ℕ)) : ℕ :=
  row.foldr (fun c m => max c.2.2 m) 0

/-- The size of the longest matching block in the window. -/
def smBestSize (a b : List Char) (alo ahi blo bhi : ℕ) : ℕ :=
  (List.range (ahi - alo)).foldr
    (fun di m => max (smRowMax (smRow a b alo blo bhi (alo + di))) m) 0

/-- The first cell of a row attaining the given block size. -/
def smPickRow (best : ℕ) (row : List (ℕ × ℕ × ℕ)) : Option (ℕ × ℕ × ℕ) :=
  row.find? (fun c => c.2.2 = best)

/-- Model of `SequenceMatcher.find_longest_match(alo, ahi, blo, bhi)` (no
junk): difflib returns the longest matching block and, among blocks of
maximal size, the one with smallest `i`, then smallest `j` (its scan updates
the best only on `k > bestsize`).  Equivalently: the first cell in scan order
(`i` ascending, then `j`) whose common-suffix length attains the maximum,
shifted back to the start of the block; when nothing matches the block is
`(alo, blo, 0)`. -/
def smFindLongestMatch (a b : List Char) (alo ahi blo bhi : ℕ) : ℕ × ℕ × ℕ :=
  let best := smBestSize a b alo ahi blo bhi
  if best = 0 then (alo, blo, 0)
  else
    match (List.range (ahi - alo)).findSome?
        (fun di => smPickRow best (smRow a b alo blo bhi (alo + di))) with
    | some c => (c.1 + 1 - c.2.2, c.2.1 + 1 - c.2.2, c.2.2)
    | Option.none => (alo, blo, 0)

/-- Total size of all matching blocks (the `M` of `ratio()`); the fuel bounds the
recursion depth and `la + lb + 1` always suffices. -/
def smMatchesSum (a b : List Char) : ℕ → ℕ → ℕ → ℕ → ℕ → ℕ
  | 0, _, _, _, _ => 0
  | fuel + 1, alo, ahi, blo, bhi =>
    let r := smFindLongestMatch a b alo ahi blo bhi
    if r.2.2 = 0 then 0
    else
      smMatchesSum a b fuel alo r.1 blo r.2.1 + r.2.2 +
        smMatchesSum a b fuel (r.1 + r.2.2) ahi (r.2.1 + r.2.2) bhi

/-- Model of `SequenceMatcher(None, a, b).ratio()` as an exact rational:
`2*M / (len(a)+len(b))`, and `1.0` when both strings are empty. -/
def similarity (a b : String) : ℚ :=
  let la := a.data.length
  let lb := b.data.length
  if la + lb = 0 then 1
  else (2 * (smMatchesSum a.data b.data (la + lb + 1) 0 la 0 lb) : ℚ) / (la + lb : ℕ)

/-- The comparison `ratio() > num/den` carried out in integer arithmetic
(`2*M/(la+lb) > num/den` cross-multiplied); used for the threshold tests of
the code so that the whole pipeline evaluates by `decide`. -/
def simGt (a b : String) (num den : ℕ) : Bool :=
  let la := a.data.length
  let lb := b.data.length
  if la + lb = 0 then decide (num < den)
  else decide (num * (la + lb) < den * (2 * smMatchesSum a.data b.data (la + lb + 1) 0 la 0 lb))

theorem simGt_iff (a b : String) (num den : ℕ) (hden : 0 < den) :
    simGt a b num den = true ↔ similarity a b > (num : ℚ) / (den : ℚ) := by
  have hden2 : (0 : ℚ) < (den : ℚ) := by exact_mod_cast hden
  by_cases h : a.data.length + b.data.length = 0
  · simp only [simGt, similarity, h, reduceIte, decide_eq_true_eq, gt_iff_lt]
    rw [div_lt_one hden2]
    exact Nat.cast_lt.symm
  · have hT : (0 : ℚ) < ((a.data.length + b.data.length : ℕ) : ℚ) := by
      exact_mod_cast Nat.pos_of_ne_zero h
    simp only [simGt, similarity, h, reduceIte, decide_eq_true_eq, gt_iff_lt]
    rw [div_lt_div_iff₀ hden2 hT]
    constructor
    · intro h2
      rw [Nat.mul_comm den _] at h2
      exact_mod_cast h2
    · intro h2
      rw [Nat.mul_comm den _]
      exact_mod_cast h2

/-! ### PlayerDataValidator: normalisation (player_validator.py) -/

/-- The 32 valid NFL team codes (`self.nfl_teams`). -/
def nflTeams : List String :=
  ["ARI", "ATL", "BAL", "BUF", "CAR", "CHI", "CIN", "CLE",
   "DAL", "DEN", "DET", "GB", "HOU", "IND", "JAX", "KC",
   "LV", "LAC", "LAR", "MIA", "MIN", "NE", "NO", "NYG",
   "NYJ", "PHI", "PIT", "SF", "SEA", "TB", "TEN", "WAS"]

/-- The 7 accepted fantasy position strings (`self.fantasy_positions`). -/
def fantasyPositions : List String := ["QB", "RB", "WR", "TE", "K", "DEF", "DST"]

/-- Model of `self.name_variations`, in dict insertion order. -/
def nameVariations : List (String × String) :=
  [("DJ", "D.J."), ("AJ", "A.J."), ("TJ", "T.J."), ("CJ", "C.J."), ("JJ", "J.J."),
   ("RJ", "R.J."), ("BJ", "B.J."), ("MJ", "M.J."), ("PJ", "P.J.")]

/-- Model of `self.team_mappings`. -/
def teamMappings : List (String × String) :=
  [("LAS", "LV"), ("LVRD", "LV"), ("WSH", "WAS"), ("WFT", "WAS"), ("JAC", "JAX")]

/-- A regex word character (`\w`): letter, digit or underscore. -/
def isWordChar (c : Char) : Bool := c.isAlphanum || c = Char.ofNat 95

/-- Whole-word replacement of `pat` by `repl`, scanning left to right without
overlap — the model of `re.sub(rf"\b{pat}\b", repl, s)` for a purely
word-character pattern.  `prev` is the character before the scan position. -/
def wordSubGo (pat repl : List Char) : ℕ → Option Char → List Char → List Char
  | 0, _, l => l
  | _ + 1, _, [] => []
  | fuel + 1, prev, c :: rest =>
    let l := c :: rest
    let boundaryBefore := match prev with
      | some p => !isWordChar p
      | Option.none => true
    let boundaryAfter := match l.drop pat.length with
      | c2 :: _ => !isWordChar c2
      | [] => true
    if l.take pat.length = pat && pat.length > 0 && boundaryBefore && boundaryAfter then
      repl ++ wordSubGo pat repl fuel pat.getLast? (l.drop pat.length)
    else
      c :: wordSubGo pat repl fuel (some c) rest

/-- Model of `re.sub(rf"\b{pat}\b", repl, s)`. -/
def wordSub (pat repl s : String) : String :=
  String.mk (wordSubGo pat.data repl.data s.data.length Option.none s.data)

/-- The generational-suffix alternatives of `r"\s+(Jr\.?|Sr\.?|III|IV|V)$"`,
lower-cased for the case-insensitive match, in alternation order. -/
def genSuffixes : List String := ["jr.", "jr", "sr.", "sr", "iii", "iv", "v"]

/-- Model of `re.sub(r"\s+(Jr\.?|Sr\.?|III|IV|V)$", "", name, flags=re.IGNORECASE)`:
strip one trailing generational suffix together with the whitespace run
before it. -/
def stripGenSuffix (s : String) : String :=
  let lc := pyLower s
  match genSuffixes.find? (fun a =>
      strEndsWith lc a &&
      (match (s.data.take (s.data.length - a.data.length)).getLast? with
       | some c => c.isWhitespace
       | Option.none => false)) with
  | some a => String.mk (dropTrailingWs (s.data.take (s.data.length - a.data.length)))
  | Option.none => s

/-- The final character filter of `clean_player_name` (a `re.sub` deleting the
complement class): keep letters, whitespace, periods and apostrophes. -/
def cleanCharFilter (s : String) : String :=
  String.mk (s.data.filter (fun c => c.isAlpha || c.isWhitespace || c = Char.ofNat 46 || c = apos))

/-- Model of `PlayerDataValidator.clean_player_name`. -/
def clean_player_name (name : String) : String :=
  if name = "" then ("")
  else
    let n1 := pyTitle (collapseWs name)
    let n2 := stripGenSuffix n1
    let n3 := nameVariations.foldl (fun acc p => wordSub p.1 p.2 acc) n2
    pyStrip (cleanCharFilter n3)

/-- Model of `PlayerDataValidator.normalize_team`. -/
def normalize_team (team : String) : String :=
  if team = "" then ("FA")
  else
    let t := pyStrip (pyUpper team)
    match teamMappings.find? (fun p => p.1 = t) with
    | some p => p.2
    | Option.none => t

/-- The position alias dict of `normalize_position` (FLEX/SUPERFLEX/BN map to
the empty string, i.e. are removed). -/
def positionMappings : List (String × String) :=
  [("D/ST", "DEF"), ("DST", "DEF"), ("FLEX", ""), ("SUPERFLEX", ""), ("BN", "")]

/-- Model of `PlayerDataValidator.normalize_position`. -/
def normalize_position (position : String) : String :=
  if position = "" then ("")
  else
    let p := pyStrip (pyUpper position)
    match positionMappings.find? (fun m => m.1 = p) with
    | some m => m.2
    | Option.none => p

/-! ### NFLRosterValidator (nfl_roster_validator.py) -/

/-- Remove every occurrence of a character (Python `s.replace(c, "")`). -/
def removeChar (c : Char) (s : String) : String :=
  String.mk (s.data.filter (fun x => x ≠ c))

/-- Replace every occurrence of a character (Python `s.replace(c, r)` for
one-character strings). -/
def replaceChar (c r : Char) (s : String) : String :=
  String.mk (s.data.map (fun x => if x = c then r else x))

/-- Model of `NFLRosterValidator._create_player_key`: lower-cased, de-punctuated,
whitespace-collapsed name joined with upper-cased position and team. -/
def create_player_key (name position team : String) : String :=
  let cn := pyStrip (pyLower name)
  let cn := replaceChar (Char.ofNat 45) (Char.ofNat 32) (removeChar apos (removeChar (Char.ofNat 46) cn))
  let cn := collapseWs cn
  cn ++ "_" ++ pyUpper position ++ "_" ++ pyUpper team

/-- The name cleaning done inside `_fuzzy_match_player`: lower-case,
de-punctuate, collapse whitespace. -/
def fuzzyCleanName (name : String) : String :=
  collapseWs (replaceChar (Char.ofNat 45) (Char.ofNat 32)
    (removeChar apos (removeChar (Char.ofNat 46) (pyLower name))))

/-- Model of `NFLRosterValidator._fuzzy_match_player`: scan the active-roster
keys for one with the same (upper-cased) position and team whose name part has
`SequenceMatcher` similarity strictly above 0.85 (the exact comparison
`ratio > 0.85`, carried out as `simGt _ _ 17 20`). -/
def fuzzy_match_player (active : List String) (name position team : String) : Bool :=
  let cleanName := fuzzyCleanName name
  active.any (fun playerKey =>
    let parts := pySplitOnChar (Char.ofNat 95) playerKey
    if parts.length ≥ 3 then
      if parts.getD 1 ("") = pyUpper position && parts.getD 2 ("") = pyUpper team then
        simGt cleanName (parts.getD 0 ("")) 17 20
      else false
    else false)

/-- Model of `NFLRosterValidator.validate_player`, with the resolved `ActiveRosterSet`
passed explicitly (the claim about fetch failure corresponds to `active = []`,
since `get_active_nfl_players` returns the empty set in that case).
The iteration order of the Python set is modelled by the list order. -/
def validate_player (active : List String) (player : PDict) : Except Unit Bool :=
  let name := player.getD ("name") (PyVal.str (""))
  let position := player.getD ("position") (PyVal.str (""))
  let team := player.getD ("team") (PyVal.str (""))
  if !(name.truthy && position.truthy && team.truthy) then Except.ok false
  else if [PyVal.str ("FA"), PyVal.str ("None"), PyVal.str (""), PyVal.none].any (pyEq team) then
    Except.ok false
  else do
    let n ← asStr name
    let po ← asStr position
    let t ← asStr team
    let key := create_player_key n po t
    if active.contains key then Except.ok true
    else Except.ok (fuzzy_match_player active n po t)

/-! ### PlayerDataValidator: validation, merging, deduplication -/

/-- Model of `PlayerDataValidator.validate_player_data`: normalise the three identity
fields, reject on any failed check (returning the record untouched), otherwise
write the cleaned values back into the record (the in-place mutation of the
Python code, modelled by returning the updated record) and consult the roster
validator. -/
def validate_player_data (active : List String) (player : PDict) : Except Unit (Bool × PDict) :=
  if !(["name", "position", "team"].all (fun f => (player.getD f PyVal.none).truthy)) then
    Except.ok (false, player)
  else do
    let n ← asStr (player.getD ("name") PyVal.none)
    let cleanName := clean_player_name n
    if cleanName.length < 2 then Except.ok (false, player)
    else do
      let po ← asStr (player.getD ("position") PyVal.none)
      let position := normalize_position po
      if !(fantasyPositions.contains position) then Except.ok (false, player)
      else do
        let t ← asStr (player.getD ("team") PyVal.none)
        let team := normalize_team t
        if !(nflTeams.contains team) then Except.ok (false, player)
        else
          let p2 := ((player.set ("name") (PyVal.str cleanName)).set ("position")
              (PyVal.str position)).set ("team") (PyVal.str team)
          do
            let isActive ← validate_player active p2
            Except.ok (isActive, p2)

/-- Python `str(v)` of a scalar value (`None` prints as `"None"`, floats with
their decimal expansion, always with a fractional part). -/
def pyStrOf : PyVal → String
  | .none => "None"
  | .str s => s
  | .int n => toString n
  | .float q => if q < 0 then ("-") ++ floatReprNN (-q) else floatReprNN q
where
  fracDigits : ℕ → ℚ → String
    | 0, _ => ""
    | fuel + 1, q =>
      if q = 0 then ("")
      else
        let q10 := q * 10
        let d := ⌊q10⌋
        toString d ++ fracDigits fuel (q10 - (d : ℚ))
  floatReprNN (q : ℚ) : String :=
    let ip := ⌊q⌋
    let ds := fracDigits 40 (q - (ip : ℚ))
    toString ip ++ "." ++ (if ds = "" then ("0") else ds)

/-- Model of `len(str(v))`. -/
def pyLen (v : PyVal) : ℕ := (pyStrOf v).length

/-- One iteration of the `for key, value in player2.items()` loop of
`_merge_player_data`: skip `None`/empty incoming values; overwrite when the
existing value is missing or falsy, or when the incoming value is a string
longer than `str(existing)`; otherwise, for a numeric incoming value, compare
it against the existing value — a comparison that raises `TypeError` when the
existing value is a (non-empty) string. -/
def mergeStep (merged : PDict) (kv : String × PyVal) : Except Unit PDict :=
  let k := kv.1
  let v := kv.2
  if v = PyVal.none || v = PyVal.str ("") then Except.ok merged
  else
    let ex := merged.get k
    if ex = Option.none || !((ex.getD PyVal.none).truthy) ||
        (v.isStr && pyLen v > pyLen (ex.getD (PyVal.str ("")))) then
      Except.ok (merged.set k v)
    else if v.isNum then
      match ex.getD (PyVal.int 0) with
      | PyVal.int n => Except.ok (if v.numQ > (n : ℚ) then merged.set k v else merged)
      | PyVal.float q => Except.ok (if v.numQ > q then merged.set k v else merged)
      | _ => Except.error ()
    else Except.ok merged

/-- Model of `PlayerDataValidator._merge_player_data`: start from a copy of `player1`
and fold the fields of `player2` through `mergeStep`. -/
def merge_player_data (p1 p2 : PDict) : Except Unit PDict :=
  p2.foldlM mergeStep p1

/-- The fuzzy scan of `detect_duplicates`: find the first already-seen entry
with the same position and team whose stored name has similarity strictly
above 0.9 to the cleaned name of the incoming record (the exact comparison
`ratio > 0.9`, carried out as `simGt _ _ 9 10`). -/
def findSimilarKey (cleanName : String) (pos team : PyVal) :
    PyDict PDict → Except Unit (Option String)
  | [] => Except.ok Option.none
  | (k0, q) :: rest => do
    let qpos ← q.getEx ("position")
    if pyEq pos qpos then do
      let qteam ← q.getEx ("team")
      if pyEq team qteam then do
        let qname ← q.getEx ("name")
        let qn ← asStr qname
        if simGt cleanName qn 9 10 then Except.ok (some k0)
        else findSimilarKey cleanName pos team rest
      else findSimilarKey cleanName pos team rest
    else findSimilarKey cleanName pos team rest

/-- The main loop of `PlayerDataValidator.detect_duplicates` over the ordered
dict `seen_players`: drop invalid records, merge on an exact identity-key hit,
else merge into the first sufficiently similar same-position/team entry, else
insert under the freshly built key. -/
def detectLoop (active : List String) : List PDict → PyDict PDict → Except Unit (PyDict PDict)
  | [], seen => Except.ok seen
  | player :: rest, seen => do
    let vr ← validate_player_data active player
    if !vr.1 then detectLoop active rest seen
    else
      let p := vr.2
      do
        let nameV ← p.getEx ("name")
        let ppos ← p.getEx ("position")
        let pteam ← p.getEx ("team")
        let key := pyStrOf nameV ++ "_" ++ pyStrOf ppos ++ "_" ++ pyStrOf pteam
        match seen.get key with
        | some existing => do
          let merged ← merge_player_data existing p
          detectLoop active rest (seen.set key merged)
        | Option.none => do
          let cn ← asStr nameV
          match ← findSimilarKey cn ppos pteam seen with
          | some k0 => do
            let ex ← seen.getEx k0
            let merged ← merge_player_data ex p
            detectLoop active rest (seen.set k0 merged)
          | Option.none => detectLoop active rest (seen.append1 key p)

/-- Model of `PlayerDataValidator.detect_duplicates`: the values of the accumulated
dict, in insertion order. -/
def detect_duplicates (active : List String) (players : List PDict) : Except Unit (List PDict) :=
  (detectLoop active players []).map PyDict.values

/-- Model of `PlayerDataValidator._is_fantasy_relevant`. -/
def is_fantasy_relevant (p : PDict) : Except Unit Bool :=
  if !((p.getD ("name") PyVal.none).truthy) || !((p.getD ("position") PyVal.none).truthy) ||
      !((p.getD ("team") PyVal.none).truthy) then
    Except.ok false
  else do
    let st ← asStr (p.getD ("status") (PyVal.str ("")))
    if ["RETIRED", "SUSPENDED", "INACTIVE"].contains (pyUpper st) then Except.ok false
    else do
      let pos ← p.getEx ("position")
      if ["QB", "RB", "WR", "TE"].any (fun s => pyEq pos (PyVal.str s)) then
        if ["projected_points", "fantasy_points", "adp", "rank"].any
            (fun k => (p.get k).isSome) then
          Except.ok true
        else
          Except.ok (match p.get ("active") with
            | some v => v.truthy
            | Option.none => true)
      else Except.ok true

/-- The fantasy-relevance filter loop of `clean_database_players`. -/
def relFilter : List PDict → Except Unit (List PDict)
  | [] => Except.ok []
  | p :: rest => do
    let b ← is_fantasy_relevant p
    let tail ← relFilter rest
    Except.ok (if b then p :: tail else tail)

/-- Model of `PlayerDataValidator.clean_database_players`: deduplicate/validate, then
keep the fantasy-relevant records. -/
def clean_database_players (active : List String) (players : List PDict) :
    Except Unit (List PDict) := do
  let validPlayers ← detect_duplicates active players
  relFilter validPlayers

/-! ### ADPDataSource (adp_integration.py) -/

/-- A processed ADP row as produced by `_process_ffc_player`: name, upper-cased
position, upper-cased team, and the average-draft-position value. -/
structure ADPEntry where
  name : String
  position : String
  team : String
  adp : ℚ
deriving DecidableEq, Repr

/-- Model of `ADPDataSource._create_player_key`: lower-cased stripped de-punctuated
collapsed name, upper-cased position and team. -/
def adp_create_player_key (name position team : String) : String :=
  let n := pyLower (pyStrip name)
  let n := replaceChar (Char.ofNat 45) (Char.ofNat 32) (removeChar apos (removeChar (Char.ofNat 46) n))
  let n := collapseWs n
  n ++ "_" ++ pyUpper position ++ "_" ++ pyUpper team

/-- An entry of the `player_adp` mapping built by `calculate_consensus_adp`:
identity fields from the first occurrence, the per-format ADP dict, the
consensus value, and the number of format rows seen. -/
structure ConsensusEntry where
  name : String
  position : String
  team : String
  adp_data : PyDict ℚ
  consensus_adp : ℚ
  formats_count : ℕ
deriving DecidableEq, Repr

/-- The accumulation phase of `calculate_consensus_adp`: for each format (in
dict order) and each player row, record the ADP of that format under the
identity key of the player, creating the entry on first sight. -/
def consensusBuild (multiFormatData : List (String × List ADPEntry)) : PyDict ConsensusEntry :=
  multiFormatData.foldl
    (fun acc fp =>
      fp.2.foldl
        (fun acc2 player =>
          let key := adp_create_player_key player.name player.position player.team
          let cur := match acc2.get key with
            | some e => e
            | Option.none =>
              ⟨player.name, player.position, player.team, [], 0, 0⟩
          let upd : ConsensusEntry :=
            ⟨cur.name, cur.position, cur.team, cur.adp_data.set fp.1 player.adp,
             cur.consensus_adp, cur.formats_count + 1⟩
          acc2.set key upd)
        acc)
    []

/-- Python `round(x, 1)`: round half to even at one decimal, on exact
rationals. -/
def pyRound1 (x : ℚ) : ℚ :=
  ((roundHalfEven (x * 10) : ℤ) : ℚ) / 10
where
  roundHalfEven (y : ℚ) : ℤ :=
    let f := ⌊y⌋
    let r := y - (f : ℚ)
    if r < 1 / 2 then f
    else if r > 1 / 2 then f + 1
    else if f % 2 = 0 then f else f + 1

/-- The consensus phase: for each accumulated entry with at least one ADP
value, set `consensus_adp` to the rounded arithmetic mean of its values. -/
def consensusList (m : PyDict ConsensusEntry) : List ConsensusEntry :=
  m.values.filterMap (fun e =>
    let adpValues := e.adp_data.values
    if adpValues ≠ [] then
      some ⟨e.name, e.position, e.team, e.adp_data,
        pyRound1 (adpValues.sum / (adpValues.length : ℚ)), e.formats_count⟩
    else Option.none)

/-- Stable insertion keeping equal keys in first-come order. -/
def stableInsertBy {α : Type} (le : α → α → Bool) (x : α) : List α → List α
  | [] => [x]
  | y :: ys => if le y x then y :: stableInsertBy le x ys else x :: y :: ys

/-- A stable ascending sort (the model of the stable Python `list.sort`). -/
def stableSortBy {α : Type} (le : α → α → Bool) (l : List α) : List α :=
  l.foldl (fun acc x => stableInsertBy le x acc) []

/-- Model of `ADPDataSource.calculate_consensus_adp`: accumulate per-format values per
identity, average them, and sort ascending by consensus ADP. -/
def calculate_consensus_adp (multiFormatData : List (String × List ADPEntry)) :
    List ConsensusEntry :=
  stableSortBy (fun a b => decide (a.consensus_adp ≤ b.consensus_adp))
    (consensusList (consensusBuild multiFormatData))

/-! ### Dictionary lemmas -/

theorem pyGet_set_self {α : Type} : ∀ (d : PyDict α) (k : String) (v : α),
    (d.set k v).get k = some v
  | [], k, v => by simp [PyDict.set, PyDict.get]
  | (k0, v0) :: rest, k, v => by
    by_cases h : k0 = k <;>
      simp [PyDict.set, PyDict.get, h, pyGet_set_self rest k v]

theorem pyGet_set_ne {α : Type} : ∀ (d : PyDict α) (k k2 : String) (v : α), k ≠ k2 →
    (d.set k v).get k2 = d.get k2
  | [], k, k2, v, h => by simp [PyDict.set, PyDict.get, h]
  | (k0, v0) :: rest, k, k2, v, h => by
    by_cases h0 : k0 = k
    · subst h0
      simp [PyDict.set, PyDict.get, h]
    · simp only [PyDict.set, if_neg h0]
      by_cases h2 : k0 = k2 <;>
        simp [PyDict.get, h2, pyGet_set_ne rest k k2 v h]

theorem pySet_eq_self {α : Type} : ∀ (d : PyDict α) (k : String) (v : α),
    d.get k = some v → d.set k v = d
  | [], k, v, h => by simp [PyDict.get] at h
  | (k0, v0) :: rest, k, v, h => by
    by_cases h0 : k0 = k
    · subst h0
      simp [PyDict.get] at h
      simp [PyDict.set, h]
    · simp [PyDict.get, h0] at h
      simp [PyDict.set, h0, pySet_eq_self rest k v h]

theorem pyKeys_set_of_isSome {α : Type} : ∀ (d : PyDict α) (k : String) (v : α),
    (d.get k).isSome → (d.set k v).keys = d.keys
  | [], k, v, h => by simp [PyDict.get] at h
  | (k0, v0) :: rest, k, v, h => by
    by_cases h0 : k0 = k
    · simp [PyDict.set, PyDict.keys, h0]
    · simp only [PyDict.get, if_neg h0] at h
      simp [PyDict.set, PyDict.keys, h0] at pyKeys_set_of_isSome rest k v h ⊢
      exact pyKeys_set_of_isSome rest k v h

theorem pyGet_isSome_iff_mem {α : Type} : ∀ (d : PyDict α) (k : String),
    (d.get k).isSome ↔ k ∈ d.keys
  | [], k => by simp [PyDict.get, PyDict.keys]
  | (k0, v0) :: rest, k => by
    by_cases h0 : k0 = k <;>
      simp [PyDict.get, PyDict.keys, h0, pyGet_isSome_iff_mem rest k, eq_comm]

theorem pyKeys_append1 {α : Type} (d : PyDict α) (k : String) (v : α) :
    (d.append1 k v).keys = d.keys ++ [k] := by
  simp [PyDict.append1, PyDict.keys]

theorem pyMem_keys_set {α : Type} : ∀ (d : PyDict α) (k k2 : String) (v : α),
    k2 ∈ (d.set k v).keys → k2 ∈ d.keys ∨ k2 = k
  | [], k, k2, v, h => by
    simp [PyDict.set, PyDict.keys] at h
    exact Or.inr h
  | (k0, v0) :: rest, k, k2, v, h => by
    by_cases h0 : k0 = k
    · simp only [PyDict.set, if_pos h0, PyDict.keys] at h ⊢
      exact Or.inl (by simpa using h)
    · simp only [PyDict.set, if_neg h0, PyDict.keys, List.map_cons, List.mem_cons] at h ⊢
      rcases h with h | h
      · exact Or.inl (Or.inl h)
      · rcases pyMem_keys_set rest k k2 v h with h2 | h2
        · exact Or.inl (Or.inr h2)
        · exact Or.inr h2

theorem pyKeys_set_nodup {α : Type} : ∀ (d : PyDict α) (k : String) (v : α),
    d.keys.Nodup → (d.set k v).keys.Nodup
  | [], k, v, _ => by simp [PyDict.set, PyDict.keys]
  | (k0, v0) :: rest, k, v, hnd => by
    simp only [PyDict.keys, List.map_cons, List.nodup_cons] at hnd
    by_cases h0 : k0 = k
    · simp only [PyDict.set, if_pos h0, PyDict.keys, List.map_cons, List.nodup_cons]
      exact hnd
    · simp only [PyDict.set, if_neg h0, PyDict.keys, List.map_cons, List.nodup_cons]
      refine ⟨?_, pyKeys_set_nodup rest k v hnd.2⟩
      intro hmem
      rcases pyMem_keys_set rest k k0 v hmem with h2 | h2
      · exact hnd.1 h2
      · exact h0 h2

/-! ### Records and rosters used in the concrete evaluations -/

/-- Build a minimal player record with the three identity fields. -/
def mkRec (n po t : String) : PDict :=
  [("name", PyVal.str n), ("position", PyVal.str po), ("team", PyVal.str t)]

/-- The identity key of a record recomputed from its final fields, in the
format used by `detect_duplicates` (`f"{name}_{position}_{team}"`). -/
def recordIdentityKey (p : PDict) : String :=
  pyStrOf (p.getD ("name") PyVal.none) ++ "_" ++
    pyStrOf (p.getD ("position") PyVal.none) ++ "_" ++
    pyStrOf (p.getD ("team") PyVal.none)

/-- C7: the specification states that the normalizer sends the input
"AJ Brown Jr." to "A.J. Brown" (whitespace collapse, title-case, suffix strip,
and whole-word expansion of the initial pair AJ).  The code actually returns
"Aj Brown": `str.title()` lower-cases the second letter, after which the
case-sensitive whole-word pattern for AJ can never match, so the expansion
table is dead code.  This theorem evaluates the code at the failing input. -/
theorem c7_clean_name_aj_brown_actual :
    clean_player_name ("AJ Brown Jr.") = "Aj Brown" := by decide

/-- C9: the merge operation is not total on model-conforming records — when the
incoming record holds a numeric rank and the existing record holds a non-empty
string rank, the numeric branch evaluates a number-versus-string comparison and
raises a TypeError instead of returning a merged record (here rank 13 incoming
against rank "12" existing). -/
theorem c9_merge_raises_on_mixed_rank :
    merge_player_data
        [("name", PyVal.str ("Bob")), ("rank", PyVal.str ("12"))]
        [("name", PyVal.str ("Bob")), ("rank", PyVal.int 13)] = Except.error () := by
  decide

/-! ### Concrete inputs for the deduplicator claims -/

/-- A roster containing the exact keys of all cleaned names used below. -/
def roster1 : List String :=
  ["abcdefghi_QB_BUF", "abcdfghijk_QB_BUF", "abcdefghijk_QB_BUF", "abcdefghij_QB_BUF"]

/-- Five valid records of one QB/BUF cluster: merging rewrites the stored
names of two separate entries to the same final string. -/
def input1 : List PDict :=
  [mkRec ("Abcdefghi") ("QB") ("BUF"), mkRec ("Abcdfghijk") ("QB") ("BUF"),
   mkRec ("Abcdefghijk") ("QB") ("BUF"), mkRec ("Abcdefghij") ("QB") ("BUF"),
   mkRec ("Abcdefghijk") ("QB") ("BUF")]

/-- The deduplicator output on `input1`: two records with identical fields. -/
def dupOut : List PDict :=
  [mkRec ("Abcdefghijk") ("QB") ("BUF"), mkRec ("Abcdefghijk") ("QB") ("BUF")]

/-- C1: the claim fails — `detect_duplicates` can emit two records whose
identity keys recomputed from their final fields coincide.  On `input1` the
first entry is stored under key "Abcdefghi_QB_BUF" and the second under
"Abcdfghijk_QB_BUF", but later fuzzy merges overwrite both stored names with
the longer "Abcdefghijk", so the output holds two records with the identical
recomputed key "Abcdefghijk_QB_BUF". -/
theorem c1_recomputed_key_collision :
    detect_duplicates roster1 input1 = Except.ok dupOut ∧
      ¬ List.Pairwise (fun p q => recordIdentityKey p ≠ recordIdentityKey q) dupOut := by
  constructor
  · set_option maxRecDepth 10000 in decide
  · set_option maxRecDepth 2000 in decide

theorem detectLoop_keys_nodup (active : List String) :
    ∀ (ps : List PDict) (seen res : PyDict PDict), seen.keys.Nodup →
      detectLoop active ps seen = Except.ok res → res.keys.Nodup
  | [], seen, res, hnd, h => by
    simp only [detectLoop] at h
    cases h
    exact hnd
  | player :: rest, seen, res, hnd, h => by
    simp only [detectLoop, Bind.bind, Except.bind] at h
    split at h
    · exact absurd h (by simp)
    · split at h
      · exact detectLoop_keys_nodup active rest seen res hnd h
      · split at h
        · exact absurd h (by simp)
        · split at h
          · exact absurd h (by simp)
          · split at h
            · exact absurd h (by simp)
            · split at h
              · -- exact identity-key hit: the entry is updated in place
                split at h
                · exact absurd h (by simp)
                · exact detectLoop_keys_nodup active rest _ res (pyKeys_set_nodup seen _ _ hnd) h
              · -- no exact hit: clean name, fuzzy scan
                split at h
                · exact absurd h (by simp)
                · split at h
                  · exact absurd h (by simp)
                  · split at h
                    · -- fuzzy hit on k0: entry updated in place
                      split at h
                      · exact absurd h (by simp)
                      · split at h
                        · exact absurd h (by simp)
                        · exact detectLoop_keys_nodup active rest _ res
                            (pyKeys_set_nodup seen _ _ hnd) h
                    · -- fresh insertion at the end under a new key
                      refine detectLoop_keys_nodup active rest _ res ?_ h
                      rw [pyKeys_append1, List.nodup_append]
                      refine ⟨hnd, List.nodup_singleton _, ?_⟩
                      intro a ha hmem
                      simp only [List.mem_singleton] at hmem
                      subst hmem
                      have hsome := (pyGet_isSome_iff_mem seen _).mpr ha
                      simp only [*] at hsome
                      simp at hsome

/-- C1 (amended): what the deduplicator does guarantee is that the keys under
which merged records are stored — the identity keys computed when each record
was first inserted — are pairwise distinct; merging may later rewrite name
fields, so identity keys recomputed from the final fields can coincide (as
`c1_recomputed_key_collision` shows). -/
theorem c1_insertion_keys_nodup (active : List String) (ps : List PDict)
    (res : PyDict PDict) (h : detectLoop active ps [] = Except.ok res) :
    res.keys.Nodup :=
  detectLoop_keys_nodup active ps [] res (by simp [PyDict.keys]) h

/-- Witness for C1 (amended): the concrete run of the counterexample input has
pairwise-distinct insertion keys even though the recomputed keys collide. -/
theorem c1_insertion_keys_nodup_witness :
    (["Abcdefghi_QB_BUF", "Abcdfghijk_QB_BUF"] : List String).Nodup ∧
      detectLoop roster1 input1 [] =
        Except.ok [("Abcdefghi_QB_BUF", mkRec ("Abcdefghijk") ("QB") ("BUF")),
          ("Abcdfghijk_QB_BUF", mkRec ("Abcdefghijk") ("QB") ("BUF"))] := by
  constructor
  · have := c1_insertion_keys_nodup roster1 input1
      [("Abcdefghi_QB_BUF", mkRec ("Abcdefghijk") ("QB") ("BUF")),
       ("Abcdfghijk_QB_BUF", mkRec ("Abcdefghijk") ("QB") ("BUF"))]
      (by set_option maxRecDepth 10000 in decide)
    exact this
  · set_option maxRecDepth 10000 in decide

/-! ### Validator claims -/

/-- The field, when present, holds a Python string (records conforming to the
data model satisfy this for the three identity fields). -/
def strOrAbsent (p : PDict) (k : String) : Bool :=
  match p.get k with
  | some v => v.isStr
  | Option.none => true

theorem asStr_getD_ok (p : PDict) (k : String) (h : strOrAbsent p k = true) :
    ∃ s, asStr (p.getD k (PyVal.str "")) = Except.ok s := by
  unfold strOrAbsent at h
  cases hg : p.get k with
  | none => exact ⟨"", by simp [PyDict.getD, hg, asStr]⟩
  | some v =>
    rw [hg] at h
    cases v with
    | str s => exact ⟨s, by simp [PyDict.getD, hg, asStr]⟩
    | none => simp [PyVal.isStr] at h
    | int n => simp [PyVal.isStr] at h
    | float q => simp [PyVal.isStr] at h

/-- C4: with the ActiveRosterSet empty (the state after every configured
source fails, since `get_active_nfl_players` then returns the empty set), the
roster validator accepts nothing: no record is ever sent to `ok true`, and
every record whose identity fields are strings (the data model) is rejected
with `False` — the fail-closed policy. -/
theorem c4_empty_roster_fail_closed :
    (∀ p : PDict, validate_player [] p ≠ Except.ok true) ∧
      (∀ p : PDict, strOrAbsent p ("name") = true → strOrAbsent p ("position") = true →
        strOrAbsent p ("team") = true → validate_player [] p = Except.ok false) := by
  constructor
  · intro p h
    simp only [validate_player, Bind.bind, Except.bind] at h
    split at h
    · simp at h
    · split at h
      · simp at h
      · split at h
        · simp at h
        · split at h
          · simp at h
          · split at h
            · simp at h
            · split at h
              · rename_i hc
                simp [List.contains] at hc
              · simp only [Except.ok.injEq] at h
                rw [show fuzzy_match_player [] _ _ _ = false by
                  simp [fuzzy_match_player]] at h
                exact Bool.false_ne_true h
  · intro p h1 h2 h3
    obtain ⟨sn, hn⟩ := asStr_getD_ok p ("name") h1
    obtain ⟨sp, hp⟩ := asStr_getD_ok p ("position") h2
    obtain ⟨st2, ht⟩ := asStr_getD_ok p ("team") h3
    simp only [validate_player, Bind.bind, Except.bind, hn, hp, ht]
    split
    · rfl
    · split
      · rfl
      · split
        · rename_i hc
          simp [List.contains] at hc
        · simp [fuzzy_match_player]

/-- Witness for C4 at a concrete well-formed record. -/
theorem c4_empty_roster_fail_closed_witness :
    validate_player [] (mkRec ("Josh Allen") ("QB") ("BUF")) = Except.ok false :=
  c4_empty_roster_fail_closed.2 (mkRec ("Josh Allen") ("QB") ("BUF"))
    (by decide) (by decide) (by decide)

/-- C6: a record whose normalized team is not one of the 32 valid NFL codes is
rejected by the record validator for every possible contents of the
ActiveRosterSet — the team check runs before the roster lookup, so the record
is returned unmodified with `False` (team "XX" is the example of the spec). -/
theorem c6_invalid_team_always_rejected (active : List String) (p : PDict) (t : String)
    (h1 : strOrAbsent p ("name") = true) (h2 : strOrAbsent p ("position") = true)
    (h3 : p.get ("team") = some (PyVal.str t))
    (h4 : nflTeams.contains (normalize_team t) = false) :
    validate_player_data active p = Except.ok (false, p) := by
  cases hgn : p.get ("name") with
  | none => simp [validate_player_data, PyDict.getD, hgn, PyVal.truthy]
  | some vn =>
    have hsn : vn.isStr = true := by
      unfold strOrAbsent at h1
      rw [hgn] at h1
      exact h1
    cases vn with
    | none => simp [PyVal.isStr] at hsn
    | int n => simp [PyVal.isStr] at hsn
    | float q => simp [PyVal.isStr] at hsn
    | str sn =>
      cases hgp : p.get ("position") with
      | none => simp [validate_player_data, PyDict.getD, hgn, hgp, PyVal.truthy]
      | some vp =>
        have hsp : vp.isStr = true := by
          unfold strOrAbsent at h2
          rw [hgp] at h2
          exact h2
        cases vp with
        | none => simp [PyVal.isStr] at hsp
        | int n => simp [PyVal.isStr] at hsp
        | float q => simp [PyVal.isStr] at hsp
        | str sp =>
          have hnn : asStr (p.getD ("name") PyVal.none) = Except.ok sn := by
            rw [PyDict.getD, hgn]
            rfl
          have hpp : asStr (p.getD ("position") PyVal.none) = Except.ok sp := by
            rw [PyDict.getD, hgp]
            rfl
          have htt : asStr (p.getD ("team") PyVal.none) = Except.ok t := by
            rw [PyDict.getD, h3]
            rfl
          simp only [validate_player_data, Bind.bind, Except.bind, hnn, hpp, htt]
          split
          · rfl
          · split
            · rfl
            · split
              · rfl
              · split
                · rfl
                · rename_i hcond
                  rw [h4] at hcond
                  simp at hcond

/-- Witness for C6: team "XX" is rejected and the record returned unchanged
even when the roster set contains the exact corresponding key. -/
theorem c6_invalid_team_always_rejected_witness :
    validate_player_data ["josh allen_QB_XX"] (mkRec ("Josh Allen") ("QB") ("XX")) =
      Except.ok (false, mkRec ("Josh Allen") ("QB") ("XX")) :=
  c6_invalid_team_always_rejected ["josh allen_QB_XX"]
    (mkRec ("Josh Allen") ("QB") ("XX")) ("XX")
    (by decide) (by decide) (by decide) (by decide)

theorem validate_player_total (active : List String) (p : PDict)
    (h1 : strOrAbsent p ("name") = true) (h2 : strOrAbsent p ("position") = true)
    (h3 : strOrAbsent p ("team") = true) :
    ∃ b, validate_player active p = Except.ok b := by
  obtain ⟨sn, hn⟩ := asStr_getD_ok p ("name") h1
  obtain ⟨sp, hp⟩ := asStr_getD_ok p ("position") h2
  obtain ⟨st2, ht⟩ := asStr_getD_ok p ("team") h3
  simp only [validate_player, Bind.bind, Except.bind, hn, hp, ht]
  split
  · exact ⟨false, rfl⟩
  · split
    · exact ⟨false, rfl⟩
    · split
      · exact ⟨true, rfl⟩
      · exact ⟨_, rfl⟩

/-- C10: `validate_player_data` mutates its argument in place — whenever the
record passes field normalisation (identity fields are strings, the cleaned
name has length at least 2, position and team normalise into the valid sets),
the name, position and team fields are overwritten with their canonical values
before the roster-membership check, so the caller gets back the modified
record even when the roster check then rejects it (the returned record is the
same whatever the roster verdict `b` is). -/
theorem c10_validate_mutates_record (active : List String) (p : PDict) (n po t : String)
    (hgn : p.get ("name") = some (PyVal.str n))
    (hgp : p.get ("position") = some (PyVal.str po))
    (hgt : p.get ("team") = some (PyVal.str t))
    (hlen : 2 ≤ (clean_player_name n).length)
    (hpos : fantasyPositions.contains (normalize_position po) = true)
    (hteam : nflTeams.contains (normalize_team t) = true) :
    ∃ b, validate_player_data active p =
      Except.ok (b, ((p.set ("name") (PyVal.str (clean_player_name n))).set ("position")
        (PyVal.str (normalize_position po))).set ("team") (PyVal.str (normalize_team t))) := by
  have hn0 : n ≠ "" := by
    intro he
    rw [he, show clean_player_name "" = "" from rfl] at hlen
    simp at hlen
  have hpo0 : po ≠ "" := by
    intro he
    rw [he, show normalize_position "" = "" from rfl] at hpos
    exact absurd hpos (by decide)
  have ht0 : t ≠ "" := by
    intro he
    rw [he, show normalize_team "" = "FA" from rfl] at hteam
    exact absurd hteam (by decide)
  have hnn : asStr (p.getD ("name") PyVal.none) = Except.ok n := by
    rw [PyDict.getD, hgn]
    rfl
  have hpp : asStr (p.getD ("position") PyVal.none) = Except.ok po := by
    rw [PyDict.getD, hgp]
    rfl
  have htt : asStr (p.getD ("team") PyVal.none) = Except.ok t := by
    rw [PyDict.getD, hgt]
    rfl
  have hg1 : (((p.set ("name") (PyVal.str (clean_player_name n))).set ("position")
      (PyVal.str (normalize_position po))).set ("team")
      (PyVal.str (normalize_team t))).get ("name") =
      some (PyVal.str (clean_player_name n)) := by
    rw [pyGet_set_ne _ _ _ _ (by decide), pyGet_set_ne _ _ _ _ (by decide), pyGet_set_self]
  have hg2 : (((p.set ("name") (PyVal.str (clean_player_name n))).set ("position")
      (PyVal.str (normalize_position po))).set ("team")
      (PyVal.str (normalize_team t))).get ("position") =
      some (PyVal.str (normalize_position po)) := by
    rw [pyGet_set_ne _ _ _ _ (by decide), pyGet_set_self]
  have hg3 : (((p.set ("name") (PyVal.str (clean_player_name n))).set ("position")
      (PyVal.str (normalize_position po))).set ("team")
      (PyVal.str (normalize_team t))).get ("team") =
      some (PyVal.str (normalize_team t)) := by
    rw [pyGet_set_self]
  obtain ⟨b, hb⟩ := validate_player_total active
    (((p.set ("name") (PyVal.str (clean_player_name n))).set ("position")
      (PyVal.str (normalize_position po))).set ("team") (PyVal.str (normalize_team t)))
    (by unfold strOrAbsent; rw [hg1]; rfl)
    (by unfold strOrAbsent; rw [hg2]; rfl)
    (by unfold strOrAbsent; rw [hg3]; rfl)
  refine ⟨b, ?_⟩
  simp only [validate_player_data, Bind.bind, Except.bind, hnn, hpp, htt]
  split
  · rename_i hcond
    exfalso
    simp only [PyDict.getD, hgn, hgp, hgt, List.all, Option.getD, PyVal.truthy,
      Bool.and_true, Bool.and_eq_true] at hcond
    simp [hn0, hpo0, ht0] at hcond
  · split
    · rename_i hcond
      omega
    · split
      · rename_i hcond
        rw [hpos] at hcond
        simp at hcond
      · split
        · rename_i hcond
          rw [hteam] at hcond
          simp at hcond
        · simp only [hb]

/-- Witness for C10: a raw lower-case record is normalised in place and then
rejected by the empty roster, yet returned with its fields rewritten. -/
theorem c10_validate_mutates_record_witness :
    (∃ b, validate_player_data [] (mkRec ("josh allen") ("qb") ("buf")) =
        Except.ok (b, (((mkRec ("josh allen") ("qb") ("buf")).set ("name")
          (PyVal.str (clean_player_name ("josh allen")))).set ("position")
          (PyVal.str (normalize_position ("qb")))).set ("team")
          (PyVal.str (normalize_team ("buf"))))) ∧
      validate_player_data [] (mkRec ("josh allen") ("qb") ("buf")) =
        Except.ok (false, mkRec ("Josh Allen") ("QB") ("BUF")) := by
  constructor
  · exact c10_validate_mutates_record [] (mkRec ("josh allen") ("qb") ("buf"))
      ("josh allen") ("qb") ("buf") (by decide) (by decide) (by decide)
      (by decide) (by decide) (by decide)
  · decide

/-! ### The merge policy (claim C2) -/

/-- The overwrite condition in the words of the specification (used only to
compare the spec against the code): overwrite exactly when (a) the existing
value is absent or empty, or (b) both values are strings and the incoming
string is strictly longer, or (c) both values are numeric and the incoming
value is strictly greater. -/
def specMergeOverwrites (ex : Option PyVal) (v : PyVal) : Bool :=
  (match ex with
   | Option.none => true
   | some PyVal.none => true
   | some (PyVal.str s) => s = ""
   | some _ => false) ||
  (match ex, v with
   | some (PyVal.str s), PyVal.str s2 => decide (s.length < s2.length)
   | _, _ => false) ||
  (match ex with
   | some e => e.isNum && v.isNum && decide (e.numQ < v.numQ)
   | Option.none => false)

/-- The effect of one `mergeStep` iteration on the value stored at its own
key, as a function of the existing value: skip falsy incoming values;
overwrite when the existing value is missing or falsy or when the incoming
value is a string rendering longer than `str(existing)`; otherwise compare
numerically, raising when the existing value is a non-empty string. -/
def fieldStep (ex : Option PyVal) (v : PyVal) : Except Unit (Option PyVal) :=
  if v = PyVal.none || v = PyVal.str "" then Except.ok ex
  else if ex = Option.none || !((ex.getD PyVal.none).truthy) ||
      (v.isStr && pyLen v > pyLen (ex.getD (PyVal.str ""))) then
    Except.ok (some v)
  else if v.isNum then
    match ex.getD (PyVal.int 0) with
    | PyVal.int n => Except.ok (if v.numQ > (n : ℚ) then some v else ex)
    | PyVal.float q => Except.ok (if v.numQ > q then some v else ex)
    | _ => Except.error ()
  else Except.ok ex

theorem mergeStep_spec (merged : PDict) (k : String) (v : PyVal) :
    (mergeStep merged (k, v) = Except.error () → fieldStep (merged.get k) v = Except.error ()) ∧
      (∀ m2, mergeStep merged (k, v) = Except.ok m2 →
        fieldStep (merged.get k) v = Except.ok (m2.get k) ∧
          ∀ k2, k2 ≠ k → m2.get k2 = merged.get k2) := by
  have hframe : ∀ (w : PyVal) (k2 : String), k2 ≠ k →
      (merged.set k w).get k2 = merged.get k2 :=
    fun w k2 hk2 => pyGet_set_ne _ _ _ _ (fun he => hk2 he.symm)
  unfold mergeStep fieldStep
  dsimp only
  split
  · constructor
    · intro h
      cases h
    · intro m2 h
      cases h
      exact ⟨rfl, fun k2 _ => rfl⟩
  · split
    · constructor
      · intro h
        cases h
      · intro m2 h
        cases h
        exact ⟨by rw [pyGet_set_self], hframe v⟩
    · split
      · split
        · constructor
          · intro h
            cases h
          · intro m2 h
            cases h
            constructor
            · split
              · rw [pyGet_set_self]
              · rfl
            · intro k2 hk2
              split
              · exact hframe v k2 hk2
              · rfl
        · constructor
          · intro h
            cases h
          · intro m2 h
            cases h
            constructor
            · split
              · rw [pyGet_set_self]
              · rfl
            · intro k2 hk2
              split
              · exact hframe v k2 hk2
              · rfl
        · constructor
          · intro _
            rfl
          · intro m2 h
            cases h
      · constructor
        · intro h
          cases h
        · intro m2 h
          cases h
          exact ⟨rfl, fun k2 _ => rfl⟩

theorem pyGet_eq_none_of_not_mem {α : Type} (d : PyDict α) (k : String)
    (h : k ∉ d.keys) : d.get k = Option.none := by
  cases hg : d.get k with
  | none => rfl
  | some v =>
    exact absurd ((pyGet_isSome_iff_mem d k).mp (by rw [hg]; rfl)) h

/-- C2 (amended): under the merge policy actually implemented, for records
whose incoming field keys are distinct, the merged value at each incoming
field is exactly `fieldStep` of the existing value and the incoming value:
overwrite when the existing value is absent or falsy (None, empty string, or
numeric zero), or when the incoming value is a string whose rendering is
strictly longer than `str(existing)` (the existing value need not be a
string), or when the incoming value is numeric and strictly greater than a
numeric existing value (a numeric incoming value against a non-empty string
raises instead); fields not in the incoming record are left unchanged.  The
claim as stated — condition (b) requiring both values to be strings — fails,
see the counterexample. -/
theorem c2_merge_field_characterization (p2 : List (String × PyVal)) :
    ∀ (p1 m : PDict), merge_player_data p1 p2 = Except.ok m →
      (PyDict.keys p2).Nodup →
      (∀ k v, PyDict.get p2 k = some v → fieldStep (p1.get k) v = Except.ok (m.get k)) ∧
        (∀ k, PyDict.get p2 k = Option.none → m.get k = p1.get k) := by
  induction p2 with
  | nil =>
    intro p1 m hm _
    simp only [merge_player_data, List.foldlM_nil] at hm
    cases hm
    exact ⟨fun k v h => by simp [PyDict.get] at h, fun k _ => rfl⟩
  | cons kv rest ih =>
    intro p1 m hm hnd
    obtain ⟨k0, v0⟩ := kv
    simp only [merge_player_data, List.foldlM_cons, Bind.bind, Except.bind] at hm
    cases hstep : mergeStep p1 (k0, v0) with
    | error e =>
      rw [hstep] at hm
      simp at hm
    | ok m1 =>
      rw [hstep] at hm
      simp only [PyDict.keys, List.map_cons, List.nodup_cons] at hnd
      have hrest := ih m1 m hm hnd.2
      have hspec := (mergeStep_spec p1 k0 v0).2 m1 hstep
      constructor
      · intro k v hget
        by_cases hk : k = k0
        · subst hk
          simp only [PyDict.get, if_pos rfl] at hget
          cases hget
          have hnone : PyDict.get rest k = Option.none :=
            pyGet_eq_none_of_not_mem rest k hnd.1
          rw [hrest.2 k hnone]
          exact hspec.1
        · have hget2 : PyDict.get rest k = some v := by
            simp only [PyDict.get] at hget
            rw [if_neg (fun he => hk he.symm)] at hget
            exact hget
          have := hrest.1 k v hget2
          rwa [hspec.2 k hk] at this
      · intro k hget
        by_cases hk : k = k0
        · subst hk
          simp [PyDict.get] at hget
        · have hget2 : PyDict.get rest k = Option.none := by
            simp only [PyDict.get] at hget
            rw [if_neg (fun he => hk he.symm)] at hget
            exact hget
          rw [hrest.2 k hget2]
          exact hspec.2 k hk

/-- The float 12.5 of the merge example, as the reduced rational 25/2. -/
def q12p5 : ℚ := ⟨25, 2, by norm_num, by norm_num⟩

/-- C2 counterexample: the claim says a field is overwritten exactly when the
existing value is absent/empty, both are strings with the incoming one longer,
or both are numeric with the incoming one greater.  Merging an existing
integer rank 13 with an incoming string rank "100" satisfies none of these
conditions (the values have different types and 13 is present and non-empty),
yet the code overwrites: its string branch only checks that the incoming
value is a string, comparing against `str(13)`. -/
theorem c2_overwrite_despite_spec_conditions :
    merge_player_data [("rank", PyVal.int 13)] [("rank", PyVal.str ("100"))] =
        Except.ok [("rank", PyVal.str ("100"))] ∧
      specMergeOverwrites (some (PyVal.int 13)) (PyVal.str ("100")) = false := by
  constructor
  · decide
  · decide

/-- Witness for C2 (amended), on the example of the spec: merging
`{name: "Bob", adp: None}` with `{name: "Bob Smith", adp: 12.5}` yields
`{name: "Bob Smith", adp: 12.5}`, and the per-field characterisation applied
at the `adp` field reproduces it. -/
theorem c2_merge_field_characterization_witness :
    fieldStep (PyDict.get [("name", PyVal.str ("Bob")), ("adp", PyVal.none)] ("adp"))
        (PyVal.float q12p5) =
      Except.ok (PyDict.get
        [("name", PyVal.str ("Bob Smith")), ("adp", PyVal.float q12p5)] ("adp")) ∧
      merge_player_data [("name", PyVal.str ("Bob")), ("adp", PyVal.none)]
          [("name", PyVal.str ("Bob Smith")), ("adp", PyVal.float q12p5)] =
        Except.ok [("name", PyVal.str ("Bob Smith")), ("adp", PyVal.float q12p5)] := by
  constructor
  · exact (c2_merge_field_characterization
      [("name", PyVal.str ("Bob Smith")), ("adp", PyVal.float q12p5)]
      [("name", PyVal.str ("Bob")), ("adp", PyVal.none)]
      [("name", PyVal.str ("Bob Smith")), ("adp", PyVal.float q12p5)]
      (by decide) (by decide)).1 ("adp") (PyVal.float q12p5) (by decide)
  · decide

/-! ### Fuzzy-match thresholds (claim C5) -/

/-- A 20-character name at exact similarity 17/20 = 0.85 to the next one. -/
def s085a : String := "aaaaaaaaaaaaaaaaabbb"

/-- The roster-side name for the exact-0.85 boundary. -/
def s085b : String := "aaaaaaaaaaaaaaaaaccc"

set_option maxRecDepth 10000 in
theorem similarity_s085 : similarity s085a s085b = 17 / 20 := by
  simp only [similarity]
  rw [show s085a.data.length = 20 from by decide]
  rw [show s085b.data.length = 20 from by decide]
  rw [show smMatchesSum s085a.data s085b.data (20 + 20 + 1) 0 20 0 20 = 17 from by decide]
  norm_num

set_option maxRecDepth 10000 in
/-- C5 counterexample: the claim says fuzzy roster matching accepts at name
similarity greater than or equal to 0.85, in particular at exactly 0.85; the
code tests `similarity > 0.85` strictly, so a record at exactly 0.85 to a
same-position/team roster key is rejected. -/
theorem c5_exact_085_rejected :
    fuzzyCleanName s085a = s085a ∧
      similarity s085a s085b = 17 / 20 ∧
      (0.85 : ℚ) ≤ similarity s085a s085b ∧
      fuzzy_match_player [s085b ++ "_QB_BUF"] s085a ("QB") ("BUF") = false := by
  refine ⟨by decide, similarity_s085, ?_, by decide⟩
  rw [similarity_s085]
  norm_num

/-- A 25-character name at similarity 21/25 = 0.84 to the next one. -/
def s084a : String := "aaaaaaaaaaaaaaaaaaaaabbbb"

/-- The roster-side name for the 0.84 example. -/
def s084b : String := "aaaaaaaaaaaaaaaaaaaaacccc"

/-- A 50-character name at similarity 43/50 = 0.86 to the next one. -/
def s086a : String := "aaaaaaaaaaaaaaaaaaaaaaaaaaaaaaaaaaaaaaaaaaabbbbbbb"

/-- The roster-side name for the 0.86 example. -/
def s086b : String := "aaaaaaaaaaaaaaaaaaaaaaaaaaaaaaaaaaaaaaaaaaaccccccc"

set_option maxRecDepth 10000 in
theorem similarity_s084 : similarity s084a s084b = 21 / 25 := by
  simp only [similarity]
  rw [show s084a.data.length = 25 from by decide]
  rw [show s084b.data.length = 25 from by decide]
  rw [show smMatchesSum s084a.data s084b.data (25 + 25 + 1) 0 25 0 25 = 21 from by decide]
  norm_num

set_option maxRecDepth 100000 in
theorem similarity_s086 : similarity s086a s086b = 43 / 50 := by
  simp only [similarity]
  rw [show s086a.data.length = 50 from by decide]
  rw [show s086b.data.length = 50 from by decide]
  rw [show smMatchesSum s086a.data s086b.data (50 + 50 + 1) 0 50 0 50 = 43 from by decide]
  norm_num

set_option maxRecDepth 10000 in
theorem similarity_s090 : similarity ("Abcdefghiq") ("Abcdefghij") = 9 / 10 := by
  simp only [similarity]
  rw [show ("Abcdefghiq").data.length = 10 from by decide]
  rw [show ("Abcdefghij").data.length = 10 from by decide]
  rw [show smMatchesSum ("Abcdefghiq").data ("Abcdefghij").data (10 + 10 + 1) 0 10 0 10 = 9 from by decide]
  norm_num

set_option maxRecDepth 10000 in
theorem similarity_s090gt : similarity ("Abcdefghijk") ("Abcdefghij") = 20 / 21 := by
  simp only [similarity]
  rw [show ("Abcdefghijk").data.length = 11 from by decide]
  rw [show ("Abcdefghij").data.length = 10 from by decide]
  rw [show smMatchesSum ("Abcdefghijk").data ("Abcdefghij").data (11 + 10 + 1) 0 11 0 10 = 10 from by decide]
  norm_num

/-- A roster holding the exact keys for the 0.9-boundary dedup pairs. -/
def roster90 : List String :=
  ["abcdefghij_QB_BUF", "abcdefghiq_QB_BUF", "abcdefghijk_QB_BUF"]

/-- Two records at name similarity exactly 0.9 (same position and team). -/
def input90eq : List PDict :=
  [mkRec ("Abcdefghij") ("QB") ("BUF"), mkRec ("Abcdefghiq") ("QB") ("BUF")]

/-- Two records at name similarity 20/21 > 0.9 (same position and team). -/
def input90gt : List PDict :=
  [mkRec ("Abcdefghij") ("QB") ("BUF"), mkRec ("Abcdefghijk") ("QB") ("BUF")]

set_option maxRecDepth 100000 in
/-- C5 (amended): both thresholds are strict.  Fuzzy roster matching accepts a
record exactly when some roster key with the same upper-cased position and
team has name similarity strictly above 0.85 to the cleaned input name (so
0.84 is rejected and 0.86 accepted, but exactly 0.85 is rejected — see the
counterexample); and intra-batch duplicate detection merges two
same-position/team records only at similarity strictly above 0.90: a pair at
exactly 0.90 stays as two entries while a pair at 20/21 > 0.90 merges into
one. -/
theorem c5_thresholds_strict :
    (∀ (active : List String) (name position team : String),
      fuzzy_match_player active name position team = true ↔
        ∃ k, k ∈ active ∧
          (pySplitOnChar (Char.ofNat 95) k).length ≥ 3 ∧
          (pySplitOnChar (Char.ofNat 95) k).getD 1 ("") = pyUpper position ∧
          (pySplitOnChar (Char.ofNat 95) k).getD 2 ("") = pyUpper team ∧
          similarity (fuzzyCleanName name)
            ((pySplitOnChar (Char.ofNat 95) k).getD 0 ("")) > 0.85) ∧
      (similarity s084a s084b = 21 / 25 ∧
        fuzzy_match_player [s084b ++ "_QB_BUF"] s084a ("QB") ("BUF") = false) ∧
      (similarity s086a s086b = 43 / 50 ∧
        fuzzy_match_player [s086b ++ "_QB_BUF"] s086a ("QB") ("BUF") = true) ∧
      (similarity ("Abcdefghiq") ("Abcdefghij") = 9 / 10 ∧
        detect_duplicates roster90 input90eq = Except.ok input90eq) ∧
      (similarity ("Abcdefghijk") ("Abcdefghij") = 20 / 21 ∧
        detect_duplicates roster90 input90gt =
          Except.ok [mkRec ("Abcdefghijk") ("QB") ("BUF")]) := by
  refine ⟨?_, ⟨similarity_s084, by decide⟩, ⟨similarity_s086, by decide⟩,
    ⟨similarity_s090, by decide⟩, ⟨similarity_s090gt, by decide⟩⟩
  intro active name position team
  have h85 : (0.85 : ℚ) = ((17 : ℕ) : ℚ) / ((20 : ℕ) : ℚ) := by norm_num
  simp only [fuzzy_match_player, List.any_eq_true]
  constructor
  · rintro ⟨k, hk, hp⟩
    refine ⟨k, hk, ?_⟩
    split_ifs at hp with h1 h2
    · simp only [Bool.and_eq_true, decide_eq_true_eq] at h2
      refine ⟨h1, h2.1, h2.2, ?_⟩
      rw [gt_iff_lt, h85, ← gt_iff_lt]
      exact (simGt_iff _ _ 17 20 (by norm_num)).mp hp
  · rintro ⟨k, hk, h1, h2, h3, h4⟩
    refine ⟨k, hk, ?_⟩
    rw [if_pos h1, if_pos (show ((decide _ && decide _) = true) by
      simp only [Bool.and_eq_true, decide_eq_true_eq]
      exact ⟨h2, h3⟩)]
    refine (simGt_iff _ _ 17 20 (by norm_num)).mpr ?_
    rw [gt_iff_lt, ← h85, ← gt_iff_lt]
    exact h4

/-! ### Consensus ADP (claim C8) -/

theorem mem_stableInsertBy {α : Type} (le : α → α → Bool) (x y : α) :
    ∀ l : List α, x ∈ stableInsertBy le y l → x = y ∨ x ∈ l := by
  intro l
  induction l with
  | nil =>
    intro h
    simpa [stableInsertBy] using h
  | cons z zs ih =>
    intro h
    simp only [stableInsertBy] at h
    split at h
    · rcases List.mem_cons.mp h with h2 | h2
      · exact Or.inr (List.mem_cons.mpr (Or.inl h2))
      · rcases ih h2 with h3 | h3
        · exact Or.inl h3
        · exact Or.inr (List.mem_cons.mpr (Or.inr h3))
    · rcases List.mem_cons.mp h with h2 | h2
      · exact Or.inl h2
      · exact Or.inr h2

theorem mem_stableSortBy_aux {α : Type} (le : α → α → Bool) :
    ∀ (l acc : List α) (x : α),
      x ∈ l.foldl (fun acc2 y => stableInsertBy le y acc2) acc → x ∈ acc ∨ x ∈ l := by
  intro l
  induction l with
  | nil =>
    intro acc x h
    exact Or.inl h
  | cons z zs ih =>
    intro acc x h
    simp only [List.foldl_cons] at h
    rcases ih _ x h with h2 | h2
    · rcases mem_stableInsertBy le x z acc h2 with h3 | h3
      · exact Or.inr (by simp [h3])
      · exact Or.inl h3
    · exact Or.inr (List.mem_cons.mpr (Or.inr h2))

/-- C8: every entry produced by the consensus calculator carries a non-empty
per-format ADP dict and a consensus equal to the arithmetic mean of exactly
those available per-format values, rounded to one decimal — a format the
player is missing from contributes nothing, and a single-format player gets
that single value back. -/
theorem c8_consensus_is_rounded_mean (mfd : List (String × List ADPEntry))
    (e : ConsensusEntry) (he : e ∈ calculate_consensus_adp mfd) :
    e.consensus_adp =
        pyRound1 ((e.adp_data.values).sum / ((e.adp_data.values).length : ℚ)) ∧
      e.adp_data.values ≠ [] := by
  unfold calculate_consensus_adp stableSortBy at he
  rcases mem_stableSortBy_aux _ _ [] e he with h | h
  · simp at h
  · unfold consensusList at h
    rcases List.mem_filterMap.mp h with ⟨a, _, hfa⟩
    simp only [] at hfa
    split at hfa
    · rename_i hne
      cases hfa
      exact ⟨rfl, hne⟩
    · cases hfa

/-- Two-format ADP input of the spec example: standard 5.0, PPR 7.0. -/
def exADP2 : List (String × List ADPEntry) :=
  [("standard", [⟨"Bob Smith", "QB", "BUF", 5⟩]), ("ppr", [⟨"Bob Smith", "QB", "BUF", 7⟩])]

/-- One-format ADP input of the spec example: PPR 7.0 only. -/
def exADP1 : List (String × List ADPEntry) :=
  [("ppr", [⟨"Bob Smith", "QB", "BUF", 7⟩])]

/-- The consensus entry for the two-format example (mean 6.0). -/
def exEntry2 : ConsensusEntry :=
  ⟨"Bob Smith", "QB", "BUF", [("standard", 5), ("ppr", 7)], 6, 2⟩

/-- The consensus entry for the one-format example (the single value 7.0). -/
def exEntry1 : ConsensusEntry :=
  ⟨"Bob Smith", "QB", "BUF", [("ppr", 7)], 7, 1⟩

/-- Witness for C8: formats standard 5.0 and ppr 7.0 give consensus 6.0; a
single format ppr 7.0 gives consensus 7.0 (no imputation), and the rounded
mean of the two-format entry satisfies the characterisation. -/
theorem c8_consensus_is_rounded_mean_witness :
    calculate_consensus_adp exADP2 = [exEntry2] ∧
      calculate_consensus_adp exADP1 = [exEntry1] ∧
      exEntry2.consensus_adp =
        pyRound1 ((exEntry2.adp_data.values).sum / ((exEntry2.adp_data.values).length : ℚ)) ∧
      exEntry2.consensus_adp = 6 ∧ exEntry1.consensus_adp = 7 := by
  have hb2 : consensusBuild exADP2 =
      [("bob smith_QB_BUF",
        ⟨"Bob Smith", "QB", "BUF", [("standard", 5), ("ppr", 7)], 0, 2⟩)] := by decide
  have hb1 : consensusBuild exADP1 =
      [("bob smith_QB_BUF", ⟨"Bob Smith", "QB", "BUF", [("ppr", 7)], 0, 1⟩)] := by decide
  have hl2 : consensusList
      [("bob smith_QB_BUF",
        ⟨"Bob Smith", "QB", "BUF", [("standard", 5), ("ppr", 7)], 0, 2⟩)] = [exEntry2] := by
    norm_num [consensusList, PyDict.values, List.filterMap, pyRound1,
      pyRound1.roundHalfEven, exEntry2]
    simp
  have hl1 : consensusList
      [("bob smith_QB_BUF", ⟨"Bob Smith", "QB", "BUF", [("ppr", 7)], 0, 1⟩)] = [exEntry1] := by
    norm_num [consensusList, PyDict.values, List.filterMap, pyRound1,
      pyRound1.roundHalfEven, exEntry1]
  have hc2 : calculate_consensus_adp exADP2 = [exEntry2] := by
    unfold calculate_consensus_adp
    rw [hb2, hl2]
    simp [stableSortBy, stableInsertBy]
  have hc1 : calculate_consensus_adp exADP1 = [exEntry1] := by
    unfold calculate_consensus_adp
    rw [hb1, hl1]
    simp [stableSortBy, stableInsertBy]
  refine ⟨hc2, hc1, ?_, rfl, rfl⟩
  exact (c8_consensus_is_rounded_mean exADP2 exEntry2 (by rw [hc2]; simp)).1

/-! ### Idempotence of the pipeline (claim C3) -/

set_option maxRecDepth 10000 in
/-- C3 counterexample: the pipeline is not idempotent.  The record named
"X III III" cleans to "X Iii" and passes validation (its roster key is
present), but running the pipeline on that output cleans the name again —
the case-insensitive suffix regex strips the trailing "Iii" — leaving the
one-character name "X", which fails validation, so the second run returns
the empty list. -/
theorem c3_pipeline_not_idempotent :
    clean_database_players ["x iii_QB_BUF"] [mkRec ("X III III") ("QB") ("BUF")] =
        Except.ok [mkRec ("X Iii") ("QB") ("BUF")] ∧
      clean_database_players ["x iii_QB_BUF"] [mkRec ("X Iii") ("QB") ("BUF")] =
        Except.ok [] := by
  constructor
  · decide
  · decide

/-- The string stored at a field (empty when absent or not a string). -/
def recStr (p : PDict) (k : String) : String :=
  match p.get k with
  | some (PyVal.str s) => s
  | _ => ""

/-- A record is a normalisation fixed point valid against the roster: the
three identity fields are strings untouched by cleaning, the cleaned name is
long enough, position and team are canonical members of the valid sets, the
exact roster key is present, and the record is fantasy-relevant. -/
def cleanStableValid (active : List String) (p : PDict) : Bool :=
  match p.get ("name"), p.get ("position"), p.get ("team") with
  | some (PyVal.str n), some (PyVal.str po), some (PyVal.str t) =>
    decide (clean_player_name n = n) && decide (2 ≤ n.length) &&
      decide (normalize_position po = po) && fantasyPositions.contains po &&
      decide (normalize_team t = t) && nflTeams.contains t &&
      active.contains (create_player_key n po t) &&
      decide (is_fantasy_relevant p = Except.ok true)
  | _, _, _ => false

/-- Compatibility of an earlier record `p` with a later record `q` in the same
batch: distinct recomputed identity keys, and if they share position and team
then the later name is not similar enough (strictly above 0.9) to the earlier
one to trigger a fuzzy merge. -/
def dedupCompat (p q : PDict) : Bool :=
  decide (recordIdentityKey p ≠ recordIdentityKey q) &&
    (if recStr p ("position") = recStr q ("position") &&
        recStr p ("team") = recStr q ("team") then
      !(simGt (recStr q ("name")) (recStr p ("name")) 9 10)
    else true)

theorem mem_fantasy_ne_empty (po : String) (h : fantasyPositions.contains po = true) :
    po ≠ "" := by
  intro he
  subst he
  exact absurd h (by decide)

theorem mem_teams_ne (t : String) (h : nflTeams.contains t = true) :
    t ≠ "" ∧ t ≠ "FA" ∧ t ≠ "None" := by
  refine ⟨?_, ?_, ?_⟩ <;> intro he <;> subst he <;> exact absurd h (by decide)

theorem vpd_of_cleanStableValid (active : List String) (p : PDict)
    (h : cleanStableValid active p = true) :
    validate_player_data active p = Except.ok (true, p) := by
  unfold cleanStableValid at h
  split at h
  · rename_i n po t hgn hgp hgt
    simp only [Bool.and_eq_true, decide_eq_true_eq] at h
    obtain ⟨⟨⟨⟨⟨⟨⟨hclean, hlen⟩, hpo⟩, hpomem⟩, hteam⟩, htmem⟩, hkey⟩, hrel⟩ := h
    have hn0 : n ≠ "" := by
      intro he
      rw [he] at hlen
      simp at hlen
    have hpo0 := mem_fantasy_ne_empty po hpomem
    obtain ⟨ht0, htFA, htNone⟩ := mem_teams_ne t htmem
    have hnn : asStr (p.getD ("name") PyVal.none) = Except.ok n := by
      rw [PyDict.getD, hgn]
      rfl
    have hpp : asStr (p.getD ("position") PyVal.none) = Except.ok po := by
      rw [PyDict.getD, hgp]
      rfl
    have htt : asStr (p.getD ("team") PyVal.none) = Except.ok t := by
      rw [PyDict.getD, hgt]
      rfl
    have hset : ((p.set ("name") (PyVal.str (clean_player_name n))).set ("position")
        (PyVal.str (normalize_position po))).set ("team") (PyVal.str (normalize_team t)) = p := by
      rw [hclean, hpo, hteam, pySet_eq_self p _ _ hgn, pySet_eq_self p _ _ hgp,
        pySet_eq_self p _ _ hgt]
    have hvp : validate_player active p = Except.ok true := by
      simp only [validate_player, PyDict.getD, hgn, hgp, hgt, Option.getD_some,
        PyVal.truthy, Bind.bind, Except.bind]
      rw [if_neg, if_neg]
      · simp only [asStr]
        rw [if_pos hkey]
      · simp only [List.any, pyEq, Bool.or_eq_true, decide_eq_true_eq]
        simp [htFA, htNone, ht0]
      · simp [hn0, hpo0, ht0]
    simp only [validate_player_data, Bind.bind, Except.bind, hnn, hpp, htt]
    rw [if_neg, if_neg, if_neg, if_neg]
    · rw [hset, hvp]
    · rw [hteam, htmem]
      simp
    · rw [hpo, hpomem]
      simp
    · rw [hclean]
      omega
    · simp only [PyDict.getD, hgn, hgp, hgt, List.all_cons, List.all_nil,
        Option.getD_some, PyVal.truthy]
      simp [hn0, hpo0, ht0]
  · exact absurd h (by simp)

theorem rel_of_cleanStableValid (active : List String) (p : PDict)
    (h : cleanStableValid active p = true) : is_fantasy_relevant p = Except.ok true := by
  unfold cleanStableValid at h
  split at h
  · simp only [Bool.and_eq_true, decide_eq_true_eq] at h
    exact h.2
  · exact absurd h (by simp)

theorem relFilter_fixed : ∀ ps : List PDict,
    (∀ p ∈ ps, is_fantasy_relevant p = Except.ok true) → relFilter ps = Except.ok ps
  | [], _ => rfl
  | p :: rest, h => by
    have hp := h p (by simp)
    simp only [relFilter, Bind.bind, Except.bind, hp]
    rw [relFilter_fixed rest (fun q hq => h q (by simp [hq]))]
    simp

theorem pyGet_none_of_keys_ne {α : Type} :
    ∀ (d : PyDict α) (k : String), (∀ e ∈ d, Prod.fst e ≠ k) → d.get k = Option.none
  | [], _, _ => rfl
  | (k0, v0) :: rest, k, h => by
    have h0 : k0 ≠ k := h (k0, v0) (List.mem_cons_self _ _)
    simp only [PyDict.get, if_neg h0]
    exact pyGet_none_of_keys_ne rest k (fun e he => h e (List.mem_cons_of_mem _ he))

theorem findSimilarKey_none (active : List String) (p : PDict) :
    ∀ seen : PyDict PDict,
      (∀ e ∈ seen, cleanStableValid active (Prod.snd e) = true ∧
        dedupCompat (Prod.snd e) p = true) →
      findSimilarKey (recStr p ("name")) (PyVal.str (recStr p ("position")))
        (PyVal.str (recStr p ("team"))) seen = Except.ok Option.none
  | [], _ => rfl
  | (k0, q) :: rest, h => by
    obtain ⟨hq, hcomp⟩ := h (k0, q) (List.mem_cons_self _ _)
    have hrest := findSimilarKey_none active p rest (fun e he => h e (List.mem_cons_of_mem _ he))
    unfold cleanStableValid at hq
    split at hq
    · rename_i qn qpo qt hqn hqp hqt
      have hq1 : recStr q ("position") = qpo := by simp [recStr, hqp]
      have hq2 : recStr q ("team") = qt := by simp [recStr, hqt]
      have hq3 : recStr q ("name") = qn := by simp [recStr, hqn]
      simp only [findSimilarKey, PyDict.getEx, hqp, hqt, hqn, Bind.bind, Except.bind]
      by_cases hpos : recStr p ("position") = qpo
      · rw [if_pos (by simp [pyEq, hpos])]
        by_cases hteam : recStr p ("team") = qt
        · rw [if_pos (by simp [pyEq, hteam])]
          simp only [asStr, Bind.bind, Except.bind]
          have hsim : simGt (recStr p ("name")) qn 9 10 = false := by
            simp only [dedupCompat, Bool.and_eq_true, decide_eq_true_eq] at hcomp
            have h2 := hcomp.2
            rw [if_pos (show recStr q ("position") = recStr p ("position") ∧
                recStr q ("team") = recStr p ("team") from
                ⟨by rw [hq1, hpos], by rw [hq2, hteam]⟩)] at h2
            rw [← hq3]
            simpa using h2
          rw [hsim]
          simp only [Bool.false_eq_true, if_false]
          exact hrest
        · rw [if_neg (by simp [pyEq, hteam])]
          exact hrest
      · rw [if_neg (by simp [pyEq, hpos])]
        exact hrest
    · exact absurd hq (by simp)

theorem detectLoop_fixed (active : List String) :
    ∀ (ps : List PDict) (seen : PyDict PDict),
      (∀ p ∈ ps, cleanStableValid active p = true) →
      List.Pairwise (fun p q => dedupCompat p q = true) ps →
      (∀ e ∈ seen, Prod.fst e = recordIdentityKey (Prod.snd e) ∧
        cleanStableValid active (Prod.snd e) = true) →
      (∀ e ∈ seen, ∀ p ∈ ps, dedupCompat (Prod.snd e) p = true) →
      detectLoop active ps seen =
        Except.ok (List.append seen (ps.map (fun p => (recordIdentityKey p, p))))
  | [], seen, _, _, _, _ => by simp [detectLoop]
  | p :: rest, seen, hv, hpw, hinv, hcross => by
    have hvP := hv p (List.mem_cons_self _ _)
    have hvpd := vpd_of_cleanStableValid active p hvP
    have hvPc := hvP
    unfold cleanStableValid at hvPc
    split at hvPc
    · rename_i n po t hgn hgp hgt
      have hr1 : recStr p ("name") = n := by simp [recStr, hgn]
      have hr2 : recStr p ("position") = po := by simp [recStr, hgp]
      have hr3 : recStr p ("team") = t := by simp [recStr, hgt]
      have hb1 : PyDict.getEx p ("name") = Except.ok (PyVal.str n) := by
        simp [PyDict.getEx, hgn]
      have hb2 : PyDict.getEx p ("position") = Except.ok (PyVal.str po) := by
        simp [PyDict.getEx, hgp]
      have hb3 : PyDict.getEx p ("team") = Except.ok (PyVal.str t) := by
        simp [PyDict.getEx, hgt]
      have hrik : recordIdentityKey p =
          pyStrOf (PyVal.str n) ++ "_" ++ pyStrOf (PyVal.str po) ++ "_" ++ pyStrOf (PyVal.str t) := by
        simp [recordIdentityKey, PyDict.getD, hgn, hgp, hgt]
      have hknone : seen.get (pyStrOf (PyVal.str n) ++ "_" ++ pyStrOf (PyVal.str po) ++ "_" ++
          pyStrOf (PyVal.str t)) = Option.none := by
        rw [← hrik]
        refine pyGet_none_of_keys_ne seen (recordIdentityKey p) (fun e he => ?_)
        have h1 := (hinv e he).1
        have h2 := hcross e he p (List.mem_cons_self _ _)
        simp only [dedupCompat, Bool.and_eq_true, decide_eq_true_eq] at h2
        rw [h1]
        exact fun hc => h2.1 (by rw [hc])
      have hfind : findSimilarKey n (PyVal.str po) (PyVal.str t) seen = Except.ok Option.none := by
        have := findSimilarKey_none active p seen (fun e he =>
          ⟨(hinv e he).2, hcross e he p (List.mem_cons_self _ _)⟩)
        rwa [hr1, hr2, hr3] at this
      have hnext := detectLoop_fixed active rest
        (seen.append1 (pyStrOf (PyVal.str n) ++ "_" ++ pyStrOf (PyVal.str po) ++ "_" ++
          pyStrOf (PyVal.str t)) p)
        (fun q hq => hv q (List.mem_cons_of_mem _ hq))
        ((List.pairwise_cons.mp hpw).2)
        (by
          intro e he
          rcases List.mem_append.mp he with h1 | h1
          · exact hinv e h1
          · simp only [List.mem_singleton] at h1
            subst h1
            exact ⟨hrik.symm, hvP⟩)
        (by
          intro e he q hq
          rcases List.mem_append.mp he with h1 | h1
          · exact hcross e h1 q (List.mem_cons_of_mem _ hq)
          · simp only [List.mem_singleton] at h1
            subst h1
            exact (List.pairwise_cons.mp hpw).1 q hq)
      simp only [detectLoop, hvpd, Bind.bind, Except.bind, hb1, hb2, hb3, hknone,
        asStr, hfind, Bool.not_true, Bool.false_eq_true, if_false]
      rw [hnext]
      simp [PyDict.append1, hrik]
    · exact absurd hvPc (by simp)

/-- C3 (amended): the pipeline is not idempotent in general (see the
counterexample: cleaning is not idempotent on names carrying a doubled
generational suffix), but it is the identity — and hence idempotent — on
batches of records that are already normalisation fixed points: every record
with string identity fields untouched by cleaning, valid position/team,
an exact roster key, fantasy relevance, and pairwise-distinct identity keys
with no same-position/team pair fuzzy-similar above 0.9, passes through
`clean_database_players` unchanged in content and order. -/
theorem c3_pipeline_fixed_point (active : List String) (ps : List PDict)
    (hv : ∀ p ∈ ps, cleanStableValid active p = true)
    (hpw : List.Pairwise (fun p q => dedupCompat p q = true) ps) :
    clean_database_players active ps = Except.ok ps := by
  have hd := detectLoop_fixed active ps [] hv hpw
    (by intro e he; cases he) (by intro e he; cases he)
  unfold clean_database_players detect_duplicates
  rw [hd]
  simp only [Except.map, PyDict.values, List.append_eq, List.nil_append, List.map_map,
    Bind.bind, Except.bind]
  have hid : (Prod.snd ∘ fun p : PDict => (recordIdentityKey p, p)) = id := rfl
  rw [hid, List.map_id]
  exact relFilter_fixed ps (fun q hq => rel_of_cleanStableValid active q (hv q hq))

/-- Witness for C3 (amended): a canonical record with its exact roster key
present passes through the pipeline unchanged. -/
theorem c3_pipeline_fixed_point_witness :
    clean_database_players ["josh allen_QB_BUF"] [mkRec ("Josh Allen") ("QB") ("BUF")] =
      Except.ok [mkRec ("Josh Allen") ("QB") ("BUF")] :=
  c3_pipeline_fixed_point ["josh allen_QB_BUF"] [mkRec ("Josh Allen") ("QB") ("BUF")]
    (by decide) (by simp)
